import Mathlib

/-!
Shallow embedding of the seat-booking service in `app.py`
(HITECH_CHRISTIAN_CENTER repository), together with theorems checking the
specification's claims about normalization, pairing, destination
formatting and the HTTP routes.

Python values that flow through the normalizers are modelled by the
inductive type `PyVal`; machine-level effects (spreadsheet, Twilio) are
modelled by explicit outcome parameters; Python exceptions are modelled
with `Except`.
-/

namespace App

/-! ### Digit runs (model of `re.findall(r"\d+", s)` and `int(...)`) -/

/-- Decimal value of a digit character (`c.toNat - 48`). -/
def charVal (c : Char) : Nat := c.toNat - 48

/-- Numeric value of a most-significant-digit-first digit run,
as computed by Python `int` on a digit string. -/
def runVal (cs : List Char) : Nat :=
  cs.foldl (fun a c => 10 * a + charVal c) 0

/-- Maximal digit runs of a character list, in encounter order:
model of `re.findall(r"\d+", s)`.  `cur` is the (reversed) run in
progress. -/
def digitRunsAux : List Char → List Char → List (List Char)
  | [], cur => if cur.isEmpty then [] else [cur.reverse]
  | c :: rest, cur =>
      if c.isDigit then digitRunsAux rest (c :: cur)
      else if cur.isEmpty then digitRunsAux rest []
      else cur.reverse :: digitRunsAux rest []

def digitRuns (cs : List Char) : List (List Char) := digitRunsAux cs []

/-- `extract_ints_from_string(s)`:
`[int(x) for x in re.findall(r"\d+", s or "")]`. -/
def extract_ints_from_string (s : String) : List Int :=
  (digitRuns s.data).map (fun r => (runVal r : Int))

/-- `only_digits` on a string: `"".join(re.findall(r"\d+", s))`,
i.e. keep exactly the digit characters. -/
def onlyDigitsStr (s : String) : String :=
  ⟨s.data.filter Char.isDigit⟩

/-! ### Python value model -/

/-- Model of the Python values the normalizers can receive: strings,
ints, bools, `None`, lists, and an opaque "any other object". -/
inductive PyVal where
  | PStr (s : String)
  | PInt (n : Int)
  | PBool (b : Bool)
  | PNone
  | PList (l : List PyVal)
  | POther

open PyVal

/-- Python truthiness of a `PyVal`. -/
def pyTruthy : PyVal → Bool
  | PStr s => !s.isEmpty
  | PInt n => n != 0
  | PBool b => b
  | PNone => false
  | PList l => !l.isEmpty
  | POther => true

mutual
/-- Model of Python `str(v)`. -/
def pyStr : PyVal → String
  | PStr s => s
  | PInt n => toString n
  | PBool b => if b then "True" else "False"
  | PNone => "None"
  | PList l => "[" ++ String.intercalate ", " (pyReprList l) ++ "]"
  | POther => "<object>"

/-- Model of Python `repr` applied elementwise (strings get quotes). -/
def pyReprList : List PyVal → List String
  | [] => []
  | PStr s :: rest => ("'" ++ s ++ "'") :: pyReprList rest
  | v :: rest => pyStr v :: pyReprList rest
end

/-- Python exceptions relevant to this program. -/
inductive PyExn where
  | typeError (msg : String)
  | valueError (msg : String)
  deriving Repr, DecidableEq

/-- Message used when an exception reaches the generic handler
(`f"Failed: {e}"` uses `str(e)`, which is the message). -/
def PyExn.msg : PyExn → String
  | .typeError m => m
  | .valueError m => m

/-! ### The three normalizers -/

/-- Split a character list on every `','` — model of Python
`s.split(",")` (so `""` yields `[""]`). -/
def splitComma : List Char → List (List Char)
  | [] => [[]]
  | c :: rest =>
      if c = ',' then [] :: splitComma rest
      else
        match splitComma rest with
        | [] => [[c]]
        | g :: gs => (c :: g) :: gs

/-- `s.split(",")` at the `String` level. -/
def pySplitComma (s : String) : List String :=
  (splitComma s.data).map (fun cs => (⟨cs⟩ : String))

/-- Model of Python `s.strip()`: drop leading and trailing
whitespace. -/
def pyStrip (s : String) : String :=
  ⟨((s.data.dropWhile Char.isWhitespace).reverse.dropWhile Char.isWhitespace).reverse⟩

/-- `normalize_seats(seats)`: list items that are ints pass through
(bools count as ints, as in Python), string items contribute their digit
runs, other items are skipped; a string input contributes its digit
runs; any other input yields `[]`.  Never raises. -/
def normalize_seats : PyVal → Except PyExn (List Int)
  | PList l => .ok (l.flatMap (fun item =>
      match item with
      | PInt n => [n]
      | PBool b => [if b then (1 : Int) else 0]
      | PStr s => extract_ints_from_string s
      | _ => []))
  | PStr s => .ok (extract_ints_from_string s)
  | _ => .ok []

/-- The inner `only_digits(s)` of `normalize_mobile_to_list`:
`"".join(re.findall(r"\d+", s or ""))`.  A falsy argument is replaced
by `""`; a truthy non-string argument makes `re.findall` raise
`TypeError`. -/
def only_digits (v : PyVal) : Except PyExn String :=
  if pyTruthy v then
    match v with
    | PStr s => .ok (onlyDigitsStr s)
    | _ => .error (.typeError "expected string or bytes-like object")
  else .ok ""

/-- Whether `re.findall(r"\d+", v or "")` raises on `v`: it does
exactly when `v` is truthy and not a string. -/
def findallRaises : PyVal → Bool
  | PStr _ => false
  | v => pyTruthy v

/-- `only_digits` applied to each element of a list in order, stopping
at the first raised exception (model of the list comprehension). -/
def only_digits_list : List PyVal → Except PyExn (List String)
  | [] => .ok []
  | v :: rest => do
      let d ← only_digits v
      let ds ← only_digits_list rest
      return d :: ds

/-- `normalize_mobile_to_list(mobile)`: for a list, digit-reduce every
element (raising `TypeError` on a truthy non-string element); for a
string, split on commas, strip, digit-reduce; otherwise `[]`; finally
drop empty strings. -/
def normalize_mobile_to_list (mobile : PyVal) : Except PyExn (List String) := do
  let out ←
    match mobile with
    | PList l => only_digits_list l
    | PStr s => only_digits_list ((pySplitComma s).map (fun p => PStr (pyStrip p)))
    | _ => pure []
  return out.filter (fun m => !m.isEmpty)

/-- `normalize_names_to_list(name)`: for a list, `str(...).strip()` each
element and drop empties; for a string, split on commas, strip, drop
empties; otherwise `[]`.  Never raises. -/
def normalize_names_to_list : PyVal → Except PyExn (List String)
  | PList l => .ok (((l.map (fun n => pyStrip (pyStr n))).filter (fun s => !s.isEmpty)))
  | PStr s => .ok (((pySplitComma s).map pyStrip).filter (fun p => !p.isEmpty))
  | _ => .ok []

/-! ### Row pairing engine -/

/-- A booking row `(user_code, name, mobile, seat)`. -/
structure BookingRow where
  user_code : String
  name : String
  mobile : String
  seat : Int
  deriving Repr, DecidableEq

/-- `pair_rows_for_booking`: validate mobiles (length ≥ 10), then try
the four cardinality rules in source order; otherwise raise.  Both
failures are `ValueError`s in the source, with distinct messages. -/
def pair_rows_for_booking (user_code : String) (names_list mobiles_list : List String)
    (seats_ordered : List Int) : Except PyExn (List BookingRow) :=
  if mobiles_list.any (fun m => m.length < 10) then
    .error (.valueError "Invalid mobile number")
  else if names_list.length = seats_ordered.length ∧
      mobiles_list.length = seats_ordered.length then
    .ok (List.zipWith (fun n ms => ⟨user_code, n, ms.1, ms.2⟩)
      names_list (mobiles_list.zip seats_ordered))
  else if names_list.length = 1 ∧ mobiles_list.length = 1 then
    .ok (seats_ordered.map (fun s =>
      ⟨user_code, names_list.headD "", mobiles_list.headD "", s⟩))
  else if names_list.length = 1 ∧ mobiles_list.length = seats_ordered.length then
    .ok (List.zipWith (fun m s => ⟨user_code, names_list.headD "", m, s⟩)
      mobiles_list seats_ordered)
  else if mobiles_list.length = 1 ∧ names_list.length = seats_ordered.length then
    .ok (List.zipWith (fun n s => ⟨user_code, n, mobiles_list.headD "", s⟩)
      names_list seats_ordered)
  else .error (.valueError "Cannot pair names/mobiles/seats")

/-- Spec-side restatement of the pairing rules, written from the
specification's words: the four cardinality rules tried in the stated
priority order, each producing its n₃ tuples by index selection
(`getD i` for element-wise pairing, `getD 0` for broadcast), else the
`InvalidPairing` failure.  To be compared with
`pair_rows_for_booking`. -/
def pairRulesSpec (user_code : String) (names mobiles : List String)
    (seats : List Int) : Except PyExn (List BookingRow) :=
  if names.length = seats.length ∧ mobiles.length = seats.length then
    .ok ((List.range seats.length).map (fun i =>
      ⟨user_code, names.getD i "", mobiles.getD i "", seats.getD i 0⟩))
  else if names.length = 1 ∧ mobiles.length = 1 then
    .ok ((List.range seats.length).map (fun i =>
      ⟨user_code, names.getD 0 "", mobiles.getD 0 "", seats.getD i 0⟩))
  else if names.length = 1 ∧ mobiles.length = seats.length then
    .ok ((List.range seats.length).map (fun i =>
      ⟨user_code, names.getD 0 "", mobiles.getD i "", seats.getD i 0⟩))
  else if mobiles.length = 1 ∧ names.length = seats.length then
    .ok ((List.range seats.length).map (fun i =>
      ⟨user_code, names.getD i "", mobiles.getD 0 "", seats.getD i 0⟩))
  else .error (.valueError "Cannot pair names/mobiles/seats")

/-! ### Decimal strings and comma-joins (used to state the
normalizer-agreement claim) -/

/-- The decimal digit characters. -/
def decChar (d : Nat) : Char :=
  match d with
  | 0 => '0' | 1 => '1' | 2 => '2' | 3 => '3' | 4 => '4'
  | 5 => '5' | 6 => '6' | 7 => '7' | 8 => '8' | 9 => '9'
  | _ => '*'

/-- Little-endian base-10 digits with explicit fuel (so that concrete
inputs evaluate by kernel reduction). -/
def decDigitsCore : Nat → Nat → List Nat
  | 0, _ => []
  | _ + 1, 0 => []
  | fuel + 1, n + 1 => ((n + 1) % 10) :: decDigitsCore fuel ((n + 1) / 10)

/-- Little-endian base-10 digits of a natural number. -/
def decDigits (n : Nat) : List Nat := decDigitsCore n n

/-- Decimal form of a natural number, as Python `str` renders it. -/
def natToDec (n : Nat) : String :=
  ⟨if n = 0 then ['0'] else ((decDigits n).map decChar).reverse⟩

/-- Comma-join at the character level (model of `",".join`). -/
def commaJoinChars : List (List Char) → List Char
  | [] => []
  | [c] => c
  | c :: rest => c ++ ',' :: commaJoinChars rest

/-- Comma-join of strings: `"12,45"` from `["12", "45"]`. -/
def commaJoin (l : List String) : String :=
  ⟨commaJoinChars (l.map String.data)⟩

/-! ### Notification dispatcher -/

/-- `_format_wa_to(number_str)`: strip non-digits, then apply the
"91"-prefix / 10-digit rules. -/
def _format_wa_to (number_str : String) : String :=
  let digits : List Char := number_str.data.filter Char.isDigit
  if digits.take 2 = ['9', '1'] ∧ digits.length = 12 then
    "whatsapp:+" ++ (⟨digits⟩ : String)
  else if digits.length = 10 then
    "whatsapp:+91" ++ (⟨digits⟩ : String)
  else
    "whatsapp:+" ++ (⟨digits⟩ : String)

/-- The four Twilio environment values (`None` when unset). -/
structure TwilioCfg where
  sid : Option String
  auth : Option String
  fromNum : Option String
  contentSid : Option String

/-- Python truthiness of an optional environment string. -/
def envTruthy : Option String → Bool
  | none => false
  | some s => !s.isEmpty

/-- `TWILIO_SID and TWILIO_AUTH and TWILIO_WHATSAPP_FROM and
TWILIO_CONTENT_SID_CONCERT`. -/
def TwilioCfg.complete (c : TwilioCfg) : Bool :=
  envTruthy c.sid && envTruthy c.auth && envTruthy c.fromNum && envTruthy c.contentSid

/-- Outcome of one `twilio_client.messages.create` call, as a function
of the payload fields (formatted destination, name, seat, event time):
either a message sid or an exception message. -/
def SendOracle := String → String → Int → String → Except String String

/-- `send_whatsapp_template_concert`: `None` on missing credentials;
otherwise attempt the send, returning the sid, or `None` when the
client raises (the exception is caught and logged). -/
def send_whatsapp_template_concert (cfg : TwilioCfg) (oracle : SendOracle)
    (to_number name : String) (seat : Int) (event_time : String) : Option String :=
  if !cfg.complete then none
  else
    match oracle (_format_wa_to to_number) name seat event_time with
    | .ok sid => some sid
    | .error _ => none

/-! ### The `/submit` route -/

/-- One booking object of the request body (fields as loose `PyVal`s,
defaulting to `""`/`[]` via `booking.get`). -/
structure Booking where
  user_code : PyVal
  name : PyVal
  mobile : PyVal
  seats : PyVal

/-- A persisted ledger row
`[timestamp, user_code, name, mobile, str(seat)]`. -/
def ledgerRow (timestamp : String) (r : BookingRow) : List String :=
  [timestamp, r.user_code, r.name, r.mobile, toString r.seat]

/-- How one booking fails: an early `return jsonify(...), 400`, or a
Python exception that reaches the generic handler (HTTP 500). -/
inductive BErr where
  | badRequest (msg : String)
  | exn (msg : String)
  deriving Repr, DecidableEq

/-- Python `f"{invalid}"` for a list of ints. -/
def pyIntList (l : List Int) : String :=
  "[" ++ String.intercalate ", " (l.map toString) ++ "]"

/-- Validation and pairing for one booking object, exactly in source
order: normalize the three fields, require all non-empty, require every
seat within `[1, 105]`, then pair. -/
def processBooking (b : Booking) : Except BErr (List BookingRow) :=
  let uc := pyStrip (pyStr b.user_code)
  match normalize_names_to_list b.name with
  | .error e => .error (.exn e.msg)
  | .ok names =>
    match normalize_mobile_to_list b.mobile with
    | .error e => .error (.exn e.msg)
    | .ok mobiles =>
      match normalize_seats b.seats with
      | .error e => .error (.exn e.msg)
      | .ok seats =>
        if names.isEmpty || mobiles.isEmpty || seats.isEmpty then
          .error (.badRequest "Name, Mobile, Seat required")
        else
          let invalid := seats.filter (fun s => s < 1 || s > 105)
          if !invalid.isEmpty then
            .error (.badRequest ("Invalid seats: " ++ pyIntList invalid))
          else
            match pair_rows_for_booking uc names mobiles seats with
            | .error e => .error (.exn e.msg)
            | .ok rows => .ok rows

/-- The rows one booking contributes to the ledger when it validates
(empty on failure). -/
def bookingRowsD (b : Booking) : List BookingRow :=
  match processBooking b with
  | .ok rows => rows
  | .error _ => []

/-- The response and externally visible effects of one `/submit`
request: HTTP status, JSON `ok`/`message`, the rows appended to the
ledger during the request, and the notification attempts issued
(each `Option` sid as returned by the dispatcher). -/
structure SubmitOut where
  status : Nat
  ok : Bool
  message : String
  ledger : List (List String)
  attempts : List (Option String)
  deriving Repr, DecidableEq

/-- The accumulated effects while the booking loop runs. -/
structure SubmitSt where
  ledger : List (List String)
  confirmed : List Int
  attempts : List (Option String)
  deriving Repr, DecidableEq

/-- Appends and notifications for one booking's rows
(`for (uc, nm, mb, seat) in row_tuples: ...`). -/
def appendRows (cfg : TwilioCfg) (oracle : SendOracle) (timestamp event_time : String)
    (rows : List BookingRow) (st : SubmitSt) : SubmitSt :=
  { ledger := st.ledger ++ rows.map (ledgerRow timestamp)
    confirmed := st.confirmed ++ rows.map (·.seat)
    attempts := st.attempts ++ rows.map (fun r =>
      send_whatsapp_template_concert cfg oracle r.mobile r.name r.seat event_time) }

/-- The booking loop of `/submit`: process bookings in order; the first
failure returns immediately with whatever was already appended kept. -/
def submitLoop (cfg : TwilioCfg) (oracle : SendOracle) (timestamp event_time : String) :
    List Booking → SubmitSt → SubmitOut
  | [], st =>
      { status := 200, ok := true
        message := "Thank you for registering! Seat(s) " ++
          String.intercalate ", " (st.confirmed.map toString) ++ " confirmed."
        ledger := st.ledger, attempts := st.attempts }
  | b :: rest, st =>
      match processBooking b with
      | .error (.badRequest m) =>
          { status := 400, ok := false, message := m
            ledger := st.ledger, attempts := st.attempts }
      | .error (.exn m) =>
          { status := 500, ok := false, message := "Failed: " ++ m
            ledger := st.ledger, attempts := st.attempts }
      | .ok rows =>
          submitLoop cfg oracle timestamp event_time rest
            (appendRows cfg oracle timestamp event_time rows st)

/-- The `/submit` route on an already-decoded list of bookings. -/
def submit (cfg : TwilioCfg) (oracle : SendOracle) (timestamp event_time : String)
    (bookings : List Booking) : SubmitOut :=
  submitLoop cfg oracle timestamp event_time bookings ⟨[], [], []⟩

/-! ### The `/booked-seats` route -/

/-- Python `s.isdigit()` for ASCII content: non-empty and all digits. -/
def pyIsDigit (s : String) : Bool :=
  !s.isEmpty && s.data.all Char.isDigit

/-- Response of `/booked-seats`. -/
structure BookedOut where
  status : Nat
  booked : List Int
  error : Option String
  deriving Repr, DecidableEq

/-- Parse of the persisted seat cells:
`[int(s.strip()) for v in col_values for s in v.split(",") if s.strip().isdigit()]`. -/
def parseBookedCells (cells : List String) : List Int :=
  cells.flatMap (fun v =>
    (pySplitComma v).filterMap (fun s =>
      if pyIsDigit (pyStrip s) then some ((runVal (pyStrip s).data : Int)) else none))

/-- The `/booked-seats` route, as a function of the ledger-read outcome
(the seat column below the header, or an exception message). -/
def booked_seats (readOutcome : Except String (List String)) : BookedOut :=
  match readOutcome with
  | .ok cells => { status := 200, booked := parseBookedCells cells, error := none }
  | .error e => { status := 200, booked := [], error := some e }

/-! ### The `/clear-sheet` route -/

/-- Response of `/clear-sheet`, plus whether the clear was attempted
(i.e. control reached `clear_google_sheet_values`). -/
structure ClearOut where
  status : Nat
  ok : Bool
  message : String
  attempted : Bool
  deriving Repr, DecidableEq

/-- The `/clear-sheet` route: `token` is `CLEAR_TOKEN` (unset = `none`),
`header` is `request.headers.get("X-CLEAR-TOKEN")` (absent = `none`),
`clearOutcome` the result of the sheet-clearing call. -/
def clear_sheet_route (token header : Option String)
    (clearOutcome : Except String Unit) : ClearOut :=
  if envTruthy token && !(header = token : Bool) then
    { status := 401, ok := false, message := "Unauthorized", attempted := false }
  else
    match clearOutcome with
    | .ok _ => { status := 200, ok := true, message := "Sheet cleared", attempted := true }
    | .error e => { status := 200, ok := false, message := e, attempted := true }

/-! ## Theorems -/

/-- C5: `_format_wa_to` strips non-digits, keeps a 12-digit string
starting "91" as-is, prepends "91" to a 10-digit string, and otherwise
passes the raw digit string through; with the three concrete examples
of the specification. -/
theorem format_wa_to_rules (s : String) :
    (_format_wa_to s =
      if (s.data.filter Char.isDigit).take 2 = ['9', '1'] ∧
          (s.data.filter Char.isDigit).length = 12 then
        "whatsapp:+" ++ (⟨s.data.filter Char.isDigit⟩ : String)
      else if (s.data.filter Char.isDigit).length = 10 then
        "whatsapp:+91" ++ (⟨s.data.filter Char.isDigit⟩ : String)
      else
        "whatsapp:+" ++ (⟨s.data.filter Char.isDigit⟩ : String)) ∧
    _format_wa_to "9876543210" = "whatsapp:+919876543210" ∧
    _format_wa_to "919876543210" = "whatsapp:+919876543210" ∧
    _format_wa_to "+1234567890123" = "whatsapp:+1234567890123" :=
  ⟨rfl, by decide, by decide, by decide⟩

/-- C2: the pairing engine fails with the `InvalidMobile` error exactly
when some mobile has fewer than 10 characters; by the `Except` result
type, a failure produces no tuples at all. -/
theorem invalid_mobile_iff (uc : String) (names mobiles : List String) (seats : List Int) :
    pair_rows_for_booking uc names mobiles seats =
        .error (.valueError "Invalid mobile number") ↔
      ∃ m ∈ mobiles, m.length < 10 := by
  have hiff : (∃ m ∈ mobiles, m.length < 10) ↔
      mobiles.any (fun m => m.length < 10) = true := by simp
  rw [hiff]
  by_cases h : mobiles.any (fun m => m.length < 10) = true
  · simp [pair_rows_for_booking, h]
  · simp only [pair_rows_for_booking, h, Bool.false_eq_true, if_false, iff_false]
    split_ifs <;> simp [h]

/-- C9: `/booked-seats` always answers 200; on a successful ledger read
the body is the parse of the seat cells, on a failed read it is an
empty list plus the error message; the cells `"5"`, `"7,8"`, `""`
parse to `[5, 7, 8]`. -/
theorem booked_seats_route (o : Except String (List String)) :
    (booked_seats o).status = 200 ∧
    (∀ cells, o = .ok cells →
      booked_seats o = { status := 200, booked := parseBookedCells cells, error := none }) ∧
    (∀ e, o = .error e →
      booked_seats o = { status := 200, booked := [], error := some e }) ∧
    parseBookedCells ["5", "7,8", ""] = [5, 7, 8] := by
  refine ⟨?_, ?_, ?_, by rfl⟩
  · cases o <;> rfl
  · intro cells h; subst h; rfl
  · intro e h; subst h; rfl

/-- Witness for C9 at a concrete ledger read. -/
theorem booked_seats_route_witness :
    booked_seats (.ok ["5", "7,8", ""]) =
      { status := 200, booked := [5, 7, 8], error := none } := by
  have h := booked_seats_route (.ok ["5", "7,8", ""])
  have h2 := h.2.1 ["5", "7,8", ""] rfl
  rw [h2, h.2.2.2]

/-- C10: with no configured clear token (unset or empty), `/clear-sheet`
skips the authorization check and reaches the clearing call whatever the
header holds; the 401 answer happens exactly when a token is configured
and the header differs from it. -/
theorem clear_token_auth (token header : Option String) (oc : Except String Unit) :
    ((token = none ∨ token = some "") →
      (clear_sheet_route token header oc).attempted = true ∧
      (clear_sheet_route token header oc).status ≠ 401) ∧
    ((clear_sheet_route token header oc).status = 401 ↔
      envTruthy token = true ∧ ¬header = token) := by
  constructor
  · intro hcase
    have hf : envTruthy token = false := by
      rcases hcase with h | h <;> subst h <;> rfl
    unfold clear_sheet_route
    rw [hf]
    cases oc <;> simp
  · unfold clear_sheet_route
    by_cases h : (envTruthy token && !(header = token : Bool)) = true
    · have h2 : envTruthy token = true ∧ ¬header = token := by
        simpa using h
      simp [h, h2]
    · have h2 : ¬(envTruthy token = true ∧ ¬header = token) := by
        simpa using h
      simp only [h, Bool.false_eq_true, if_false]
      cases oc <;> simp [h2]

/-- Witness for C10: an unset token lets a request with an arbitrary
header through to the clear. -/
theorem clear_token_auth_witness :
    (clear_sheet_route none (some "anything") (.ok ())).attempted = true ∧
    (clear_sheet_route none (some "anything") (.ok ())).status ≠ 401 := by
  have h := clear_token_auth none (some "anything") (.ok ())
  exact h.1 (Or.inl rfl)

/-- `Except.isOk` on a success. -/
theorem isOk_ok {ε α : Type} (a : α) : (Except.ok a : Except ε α).isOk = true := rfl

/-- `Except.isOk` on a failure. -/
theorem isOk_error {ε α : Type} (e : ε) : (Except.error e : Except ε α).isOk = false := rfl

/-- Binding a pure continuation keeps the success status. -/
theorem isOk_bind_pure {ε α β : Type} (r : Except ε α) (f : α → β) :
    (do
      let out ← r
      pure (f out) : Except ε β).isOk = r.isOk := by
  cases r <;> rfl

/-- `only_digits` succeeds exactly when the regex search would not
raise on its argument. -/
theorem only_digits_isOk (v : PyVal) :
    (only_digits v).isOk = !findallRaises v := by
  cases v <;>
    simp only [only_digits, findallRaises, pyTruthy] <;>
    (try split) <;>
    simp_all [isOk_ok, isOk_error]

/-- The elementwise digit reduction succeeds exactly when no element
makes the regex search raise. -/
theorem only_digits_list_isOk (l : List PyVal) :
    (only_digits_list l).isOk = l.all (fun v => !findallRaises v) := by
  induction l with
  | nil => rfl
  | cons v rest ih =>
      simp only [only_digits_list, List.all_cons, bind, Except.bind]
      cases hv : only_digits v with
      | error e =>
          have hfr : findallRaises v = true := by
            have h := only_digits_isOk v
            rw [hv] at h
            simpa [isOk_error] using h.symm
          simp_all [isOk_error]
      | ok d =>
          have hfr : findallRaises v = false := by
            have h := only_digits_isOk v
            rw [hv] at h
            simpa [isOk_ok] using h.symm
          cases hr : only_digits_list rest with
          | error e2 =>
              rw [hr] at ih
              rw [show ((Except.error e2 : Except PyExn (List String)).isOk) = false from rfl]
                at ih ⊢
              rw [hfr]
              simpa using ih
          | ok ds =>
              rw [hr] at ih
              rw [show ((Except.ok ds : Except PyExn (List String)).isOk) = true from rfl] at ih
              rw [show ((pure (d :: ds) : Except PyExn (List String)).isOk) = true from rfl, hfr]
              simpa using ih

/-- C3 counterexample: on a list containing the truthy non-string
element `123`, `normalize_mobile_to_list` does not return a list but
raises `TypeError` (Python: `re.findall(r"\d+", 123)` raises), so the
claim that no normalizer ever raises fails at this input. -/
theorem normalize_mobile_raises_on_int_element :
    normalize_mobile_to_list (PList [PInt 123]) =
      .error (.typeError "expected string or bytes-like object") := by rfl

/-- C3 amended: `normalize_seats` and `normalize_names_to_list` return
a list and never raise, for every input; `normalize_mobile_to_list`
does so exactly unless the field is a list with an element on which the
regex search raises (a truthy non-string, such as a nonzero int). -/
theorem normalizers_no_raise_amended (v : PyVal) :
    (normalize_seats v).isOk = true ∧
    (normalize_names_to_list v).isOk = true ∧
    ((normalize_mobile_to_list v).isOk = true ↔
      ∀ l, v = PList l → ∀ m ∈ l, findallRaises m = false) := by
  refine ⟨?_, ?_, ?_⟩
  · cases v <;> rfl
  · cases v <;> rfl
  · cases v with
    | PList l =>
        have h0 : (normalize_mobile_to_list (PList l)).isOk =
            (only_digits_list l).isOk := by
          show (do
            let out ← only_digits_list l
            pure (out.filter (fun m => !m.isEmpty)) : Except PyExn (List String)).isOk =
              (only_digits_list l).isOk
          exact isOk_bind_pure _ _
        rw [h0, only_digits_list_isOk]
        simp
    | PStr s =>
        refine iff_of_true ?_ (fun l2 he => nomatch he)
        have h0 : (normalize_mobile_to_list (PStr s)).isOk =
            (only_digits_list ((pySplitComma s).map (fun p => PStr (pyStrip p)))).isOk := by
          show (do
            let out ← only_digits_list ((pySplitComma s).map (fun p => PStr (pyStrip p)))
            pure (out.filter (fun m => !m.isEmpty)) : Except PyExn (List String)).isOk =
              (only_digits_list ((pySplitComma s).map (fun p => PStr (pyStrip p)))).isOk
          exact isOk_bind_pure _ _
        rw [h0, only_digits_list_isOk]
        simp [List.all_eq_true, findallRaises]
    | PInt n => exact iff_of_true rfl (fun l2 he => nomatch he)
    | PBool b => exact iff_of_true rfl (fun l2 he => nomatch he)
    | PNone => exact iff_of_true rfl (fun l2 he => nomatch he)
    | POther => exact iff_of_true rfl (fun l2 he => nomatch he)

/-- Witness for C3 (amended) at concrete inputs: a malformed seats
field and a clean string mobile both return without raising. -/
theorem normalizers_no_raise_amended_witness :
    (normalize_seats PNone).isOk = true ∧
    (normalize_mobile_to_list (PStr "9876543210, 98")).isOk = true := by
  have h1 := (normalizers_no_raise_amended PNone).1
  have h2 := (normalizers_no_raise_amended (PStr "9876543210, 98")).2.2.mpr
    (fun l h => nomatch h)
  exact ⟨h1, h2⟩

/-- A `zipWith` of equally long lists is the index-wise selection over
`range`. -/
theorem zipWith_eq_range_map {α β γ : Type} (f : α → β → γ) (l1 : List α) (l2 : List β)
    (d1 : α) (d2 : β) (h : l1.length = l2.length) :
    List.zipWith f l1 l2 =
      (List.range l2.length).map (fun i => f (l1.getD i d1) (l2.getD i d2)) := by
  apply List.ext_getElem
  · simp [h]
  · intro i h1 h2
    have hi2 : i < l2.length := by simpa using h2
    have hi1 : i < l1.length := by omega
    simp only [List.getElem_zipWith, List.getElem_map, List.getElem_range]
    rw [List.getD_eq_getElem l1 d1 hi1, List.getD_eq_getElem l2 d2 hi2]

/-- The element-wise pairing of rule 1 is the index-wise selection of
the specification. -/
theorem pair_elementwise_eq (uc : String) (names mobiles : List String) (seats : List Int)
    (h1 : names.length = seats.length) (h2 : mobiles.length = seats.length) :
    List.zipWith (fun n ms => BookingRow.mk uc n ms.1 ms.2) names (mobiles.zip seats) =
      (List.range seats.length).map (fun i =>
        ⟨uc, names.getD i "", mobiles.getD i "", seats.getD i 0⟩) := by
  apply List.ext_getElem
  · simp [h1, h2]
  · intro i hA hB
    have hi : i < seats.length := by simpa using hB
    have hin : i < names.length := by omega
    have him : i < mobiles.length := by omega
    simp only [List.getElem_zipWith, List.getElem_zip, List.getElem_map, List.getElem_range]
    rw [List.getD_eq_getElem names "" hin, List.getD_eq_getElem mobiles "" him,
      List.getD_eq_getElem seats 0 hi]

/-- The broadcast of rule 2 is the index-wise selection of the
specification. -/
theorem map_broadcast_eq (uc n0 m0 : String) (seats : List Int) :
    seats.map (fun s => BookingRow.mk uc n0 m0 s) =
      (List.range seats.length).map (fun i => ⟨uc, n0, m0, seats.getD i 0⟩) := by
  apply List.ext_getElem
  · simp
  · intro i hA hB
    have hi : i < seats.length := by simpa using hA
    simp only [List.getElem_map, List.getElem_range]
    rw [List.getD_eq_getElem seats 0 hi]

/-- C1: under the claim's preconditions, the pairing engine computes
exactly the ordered-rule-list semantics of the specification
(`pairRulesSpec`), and every successful pairing yields exactly as many
tuples as there are seats. -/
theorem pairing_rule_priority (uc : String) (names mobiles : List String) (seats : List Int)
    (hnames : ∀ n ∈ names, n ≠ "")
    (hmob : ∀ m ∈ mobiles, 10 ≤ m.length ∧ m.data.all Char.isDigit = true)
    (hseats : 1 ≤ seats.length) :
    pair_rows_for_booking uc names mobiles seats = pairRulesSpec uc names mobiles seats ∧
    (∀ rows, pair_rows_for_booking uc names mobiles seats = .ok rows →
      rows.length = seats.length) := by
  have hany : mobiles.any (fun m => m.length < 10) = false := by
    simp only [List.any_eq_false, decide_eq_true_eq]
    intro m hm
    have := (hmob m hm).1
    omega
  have hmain : pair_rows_for_booking uc names mobiles seats =
      pairRulesSpec uc names mobiles seats := by
    unfold pair_rows_for_booking pairRulesSpec
    simp only [hany, Bool.false_eq_true, if_false]
    split_ifs with h1 h2 h3 h4
    · exact congrArg Except.ok (pair_elementwise_eq uc names mobiles seats h1.1 h1.2)
    · rcases List.length_eq_one.mp h2.1 with ⟨n0, hn0⟩
      rcases List.length_eq_one.mp h2.2 with ⟨m0, hm0⟩
      subst hn0; subst hm0
      refine congrArg Except.ok ?_
      simpa using map_broadcast_eq uc n0 m0 seats
    · rcases List.length_eq_one.mp h3.1 with ⟨n0, hn0⟩
      subst hn0
      refine congrArg Except.ok ?_
      simpa using zipWith_eq_range_map (fun m s => BookingRow.mk uc n0 m s) mobiles seats "" 0 h3.2
    · rcases List.length_eq_one.mp h4.1 with ⟨m0, hm0⟩
      subst hm0
      refine congrArg Except.ok ?_
      simpa using zipWith_eq_range_map (fun n s => BookingRow.mk uc n m0 s) names seats "" 0 h4.2
    · rfl
  refine ⟨hmain, ?_⟩
  intro rows hr
  rw [hmain] at hr
  unfold pairRulesSpec at hr
  split_ifs at hr <;>
    first
      | (injection hr with hr2; rw [← hr2]; simp)
      | exact (nomatch hr)

/-- Witness for C1: two names, two mobiles, two seats pair
element-wise. -/
theorem pairing_rule_priority_witness :
    pair_rows_for_booking "u" ["a", "b"] ["0123456789", "1234567890"] [3, 4] =
      .ok [⟨"u", "a", "0123456789", 3⟩, ⟨"u", "b", "1234567890", 4⟩] := by
  have h := pairing_rule_priority "u" ["a", "b"] ["0123456789", "1234567890"] [3, 4]
    (by decide) (by decide) (by decide)
  rw [h.1]
  rfl

/-- The booking loop stops at the first failing booking, answering
from its error alone and keeping the state accumulated so far. -/
theorem submitLoop_error_head (cfg : TwilioCfg) (o : SendOracle) (ts et : String)
    (b : Booking) (rest : List Booking) (st : SubmitSt)
    (e : BErr) (hb : processBooking b = .error e) :
    submitLoop cfg o ts et (b :: rest) st =
      { status := match e with | .badRequest _ => 400 | .exn _ => 500
        ok := false
        message := match e with | .badRequest m => m | .exn m => "Failed: " ++ m
        ledger := st.ledger
        attempts := st.attempts } := by
  cases e <;> simp only [submitLoop, hb]

/-- The response, ledger and confirmation list of the booking loop do
not depend on the send oracle (only the recorded attempt results do). -/
theorem submitLoop_oracle_agnostic (cfg : TwilioCfg) (o1 o2 : SendOracle) (ts et : String) :
    ∀ (bs : List Booking) (led : List (List String)) (conf : List Int)
      (a1 a2 : List (Option String)),
      (submitLoop cfg o1 ts et bs ⟨led, conf, a1⟩).status =
        (submitLoop cfg o2 ts et bs ⟨led, conf, a2⟩).status ∧
      (submitLoop cfg o1 ts et bs ⟨led, conf, a1⟩).ok =
        (submitLoop cfg o2 ts et bs ⟨led, conf, a2⟩).ok ∧
      (submitLoop cfg o1 ts et bs ⟨led, conf, a1⟩).message =
        (submitLoop cfg o2 ts et bs ⟨led, conf, a2⟩).message ∧
      (submitLoop cfg o1 ts et bs ⟨led, conf, a1⟩).ledger =
        (submitLoop cfg o2 ts et bs ⟨led, conf, a2⟩).ledger := by
  intro bs
  induction bs with
  | nil => intro led conf a1 a2; exact ⟨rfl, rfl, rfl, rfl⟩
  | cons b rest ih =>
      intro led conf a1 a2
      cases hb : processBooking b with
      | error e =>
          rw [submitLoop_error_head cfg o1 ts et b rest _ e hb,
            submitLoop_error_head cfg o2 ts et b rest _ e hb]
          exact ⟨rfl, rfl, rfl, rfl⟩
      | ok rows =>
          simp only [submitLoop, hb, appendRows]
          exact ih _ _ _ _

/-- C6: the `/submit` response and the persisted ledger are identical
whatever the notification outcomes are, and the dispatcher returns
`none` — it does not raise — both on missing credentials and on a
client exception. -/
theorem notification_failure_harmless (cfg : TwilioCfg) (o1 o2 : SendOracle)
    (ts et : String) (bs : List Booking) :
    (submit cfg o1 ts et bs).status = (submit cfg o2 ts et bs).status ∧
    (submit cfg o1 ts et bs).ok = (submit cfg o2 ts et bs).ok ∧
    (submit cfg o1 ts et bs).message = (submit cfg o2 ts et bs).message ∧
    (submit cfg o1 ts et bs).ledger = (submit cfg o2 ts et bs).ledger ∧
    (∀ dest nm seat et2, cfg.complete = false →
      send_whatsapp_template_concert cfg o1 dest nm seat et2 = none) ∧
    (∀ dest nm seat et2 err, o1 (_format_wa_to dest) nm seat et2 = .error err →
      send_whatsapp_template_concert cfg o1 dest nm seat et2 = none) := by
  have h := submitLoop_oracle_agnostic cfg o1 o2 ts et bs [] [] [] []
  refine ⟨h.1, h.2.1, h.2.2.1, h.2.2.2, ?_, ?_⟩
  · intro dest nm seat et2 hc
    unfold send_whatsapp_template_concert
    rw [hc]
    rfl
  · intro dest nm seat et2 err ho
    unfold send_whatsapp_template_concert
    rw [ho]
    split <;> rfl

/-- Witness for C6: with complete credentials, a raising client still
yields `none`, and an all-failing oracle leaves the response status
unchanged. -/
theorem notification_failure_harmless_witness :
    send_whatsapp_template_concert ⟨some "sid", some "tok", some "from", some "cs"⟩
      (fun _ _ _ _ => .error "boom") "9876543210" "Asha" 3 "Jan" = none ∧
    (submit ⟨some "sid", some "tok", some "from", some "cs"⟩
        (fun _ _ _ _ => .error "boom") "t" "e" []).status =
      (submit ⟨some "sid", some "tok", some "from", some "cs"⟩
        (fun _ _ _ _ => .ok "SID") "t" "e" []).status := by
  have h := notification_failure_harmless ⟨some "sid", some "tok", some "from", some "cs"⟩
    (fun _ _ _ _ => .error "boom") (fun _ _ _ _ => .ok "SID") "t" "e" []
  exact ⟨h.2.2.2.2.2 "9876543210" "Asha" 3 "Jan" "boom" rfl, h.1⟩

/-- Processing a prefix of bookings that all validate just accumulates
their rows into the state. -/
theorem submitLoop_append_ok (cfg : TwilioCfg) (o : SendOracle) (ts et : String) :
    ∀ (pre : List Booking), (∀ p ∈ pre, (processBooking p).isOk = true) →
      ∀ (bs : List Booking) (st : SubmitSt),
        submitLoop cfg o ts et (pre ++ bs) st =
          submitLoop cfg o ts et bs
            (pre.foldl (fun s p => appendRows cfg o ts et (bookingRowsD p) s) st) := by
  intro pre
  induction pre with
  | nil => intro _ bs st; rfl
  | cons p rest ih =>
      intro hok bs st
      have hp : (processBooking p).isOk = true := hok p (by simp)
      cases hb : processBooking p with
      | error e => rw [hb] at hp; exact absurd hp (by simp [isOk_error])
      | ok rows =>
          have hrows : bookingRowsD p = rows := by unfold bookingRowsD; rw [hb]
          show submitLoop cfg o ts et (p :: (rest ++ bs)) st = _
          simp only [submitLoop, hb, List.foldl_cons, hrows]
          exact ih (fun q hq => hok q (by simp [hq])) bs _

/-- The ledger after an all-valid request is the accumulated rows of
its bookings. -/
theorem submit_pre_ledger (cfg : TwilioCfg) (o : SendOracle) (ts et : String)
    (pre : List Booking) (hpre : ∀ p ∈ pre, (processBooking p).isOk = true) :
    (submit cfg o ts et pre).ledger =
      (pre.foldl (fun s p => appendRows cfg o ts et (bookingRowsD p) s)
        (⟨[], [], []⟩ : SubmitSt)).ledger := by
  have key : submit cfg o ts et pre =
      submitLoop cfg o ts et []
        (pre.foldl (fun s p => appendRows cfg o ts et (bookingRowsD p) s) ⟨[], [], []⟩) := by
    have h2 := submitLoop_append_ok cfg o ts et pre hpre [] ⟨[], [], []⟩
    rw [List.append_nil] at h2
    exact h2
  rw [key]
  rfl

/-- C7: when a booking's normalized seats contain an out-of-range
value (and its name/mobile fields are non-empty), `/submit` answers 400
with a message listing exactly the out-of-range values, and the ledger
holds only the rows of the earlier bookings — none of this booking's,
whether or not its pairing would have succeeded (the range check comes
first). -/
theorem invalid_seats_rejected (cfg : TwilioCfg) (o : SendOracle) (ts et : String)
    (pre : List Booking) (b : Booking) (rest : List Booking)
    (hpre : ∀ p ∈ pre, (processBooking p).isOk = true)
    (names mobiles : List String) (seats : List Int)
    (hn : normalize_names_to_list b.name = .ok names)
    (hm : normalize_mobile_to_list b.mobile = .ok mobiles)
    (hs : normalize_seats b.seats = .ok seats)
    (hnne : names ≠ []) (hmne : mobiles ≠ [])
    (hbad : seats.filter (fun s => s < 1 || s > 105) ≠ []) :
    (submit cfg o ts et (pre ++ b :: rest)).status = 400 ∧
    (submit cfg o ts et (pre ++ b :: rest)).ok = false ∧
    (submit cfg o ts et (pre ++ b :: rest)).message =
      "Invalid seats: " ++ pyIntList (seats.filter (fun s => s < 1 || s > 105)) ∧
    (submit cfg o ts et (pre ++ b :: rest)).ledger = (submit cfg o ts et pre).ledger := by
  have hpb : processBooking b =
      .error (.badRequest
        ("Invalid seats: " ++ pyIntList (seats.filter (fun s => s < 1 || s > 105)))) := by
    unfold processBooking
    rw [hn, hm, hs]
    have h1 : names.isEmpty = false := by
      cases names with
      | nil => exact absurd rfl hnne
      | cons a t => rfl
    have h2 : mobiles.isEmpty = false := by
      cases mobiles with
      | nil => exact absurd rfl hmne
      | cons a t => rfl
    have h3 : seats.isEmpty = false := by
      cases seats with
      | nil => exact absurd rfl hbad
      | cons a t => rfl
    have h4 : (seats.filter (fun s => s < 1 || s > 105)).isEmpty = false := by
      cases hf : seats.filter (fun s => s < 1 || s > 105) with
      | nil => exact absurd hf hbad
      | cons a t => rfl
    simp [h1, h2, h3, h4]
  have key : submit cfg o ts et (pre ++ b :: rest) =
      submitLoop cfg o ts et (b :: rest)
        (pre.foldl (fun s p => appendRows cfg o ts et (bookingRowsD p) s) ⟨[], [], []⟩) :=
    submitLoop_append_ok cfg o ts et pre hpre (b :: rest) ⟨[], [], []⟩
  have hpl := submit_pre_ledger cfg o ts et pre hpre
  rw [key, submitLoop_error_head cfg o ts et b rest _ _ hpb]
  exact ⟨rfl, rfl, rfl, hpl.symm⟩

/-- Witness for C7: a valid first booking followed by one with seat
106 gives a 400 listing `[106]`, with only the first booking's row in
the ledger. -/
theorem invalid_seats_rejected_witness :
    (submit ⟨none, none, none, none⟩ (fun _ _ _ _ => .error "x") "t" "e"
        [⟨PStr "", PStr "Asha", PStr "9876543210", PList [PInt 5]⟩,
         ⟨PStr "", PStr "Ravi", PStr "9876543210", PList [PInt 106]⟩]).status = 400 ∧
    (submit ⟨none, none, none, none⟩ (fun _ _ _ _ => .error "x") "t" "e"
        [⟨PStr "", PStr "Asha", PStr "9876543210", PList [PInt 5]⟩,
         ⟨PStr "", PStr "Ravi", PStr "9876543210", PList [PInt 106]⟩]).message =
      "Invalid seats: [106]" := by
  have h := invalid_seats_rejected ⟨none, none, none, none⟩ (fun _ _ _ _ => .error "x")
    "t" "e" [⟨PStr "", PStr "Asha", PStr "9876543210", PList [PInt 5]⟩]
    ⟨PStr "", PStr "Ravi", PStr "9876543210", PList [PInt 106]⟩ []
    (by decide) ["Ravi"] ["9876543210"] [106] rfl rfl rfl
    (by decide) (by decide) (by decide)
  exact ⟨h.1, h.2.2.1.trans rfl⟩

/-- C8: when a later booking of a multi-booking request fails
validation or pairing, the route answers with an error status (400 or
500) whose message depends only on that failure — it does not report
the partial success — while every row appended for the earlier bookings
stays in the ledger (no rollback). -/
theorem partial_append_persists (cfg : TwilioCfg) (o : SendOracle) (ts et : String)
    (pre : List Booking) (b : Booking) (rest : List Booking)
    (hpre : ∀ p ∈ pre, (processBooking p).isOk = true)
    (e : BErr) (hb : processBooking b = .error e) :
    ((submit cfg o ts et (pre ++ b :: rest)).status = 400 ∨
      (submit cfg o ts et (pre ++ b :: rest)).status = 500) ∧
    (submit cfg o ts et (pre ++ b :: rest)).ok = false ∧
    (submit cfg o ts et (pre ++ b :: rest)).message =
      (match e with
        | .badRequest m => m
        | .exn m => "Failed: " ++ m) ∧
    (submit cfg o ts et (pre ++ b :: rest)).ledger = (submit cfg o ts et pre).ledger := by
  have key : submit cfg o ts et (pre ++ b :: rest) =
      submitLoop cfg o ts et (b :: rest)
        (pre.foldl (fun s p => appendRows cfg o ts et (bookingRowsD p) s) ⟨[], [], []⟩) :=
    submitLoop_append_ok cfg o ts et pre hpre (b :: rest) ⟨[], [], []⟩
  have hpl := submit_pre_ledger cfg o ts et pre hpre
  rw [key, submitLoop_error_head cfg o ts et b rest _ e hb]
  cases e with
  | badRequest m => exact ⟨Or.inl rfl, rfl, rfl, hpl.symm⟩
  | exn m => exact ⟨Or.inr rfl, rfl, rfl, hpl.symm⟩

/-- Witness for C8: an unpairable second booking (2 names, 3 mobiles,
3 seats) gives a 500 while the first booking's row stays persisted. -/
theorem partial_append_persists_witness :
    ((submit ⟨none, none, none, none⟩ (fun _ _ _ _ => .error "x") "t" "e"
        [⟨PStr "", PStr "Asha", PStr "9876543210", PList [PInt 5]⟩,
         ⟨PStr "", PStr "A,B", PStr "9876543210,9876543211,9876543212",
           PList [PInt 1, PInt 2, PInt 3]⟩]).status = 400 ∨
      (submit ⟨none, none, none, none⟩ (fun _ _ _ _ => .error "x") "t" "e"
        [⟨PStr "", PStr "Asha", PStr "9876543210", PList [PInt 5]⟩,
         ⟨PStr "", PStr "A,B", PStr "9876543210,9876543211,9876543212",
           PList [PInt 1, PInt 2, PInt 3]⟩]).status = 500) ∧
    (submit ⟨none, none, none, none⟩ (fun _ _ _ _ => .error "x") "t" "e"
        [⟨PStr "", PStr "Asha", PStr "9876543210", PList [PInt 5]⟩,
         ⟨PStr "", PStr "A,B", PStr "9876543210,9876543211,9876543212",
           PList [PInt 1, PInt 2, PInt 3]⟩]).ledger =
      (submit ⟨none, none, none, none⟩ (fun _ _ _ _ => .error "x") "t" "e"
        [⟨PStr "", PStr "Asha", PStr "9876543210", PList [PInt 5]⟩]).ledger := by
  have h := partial_append_persists ⟨none, none, none, none⟩ (fun _ _ _ _ => .error "x")
    "t" "e" [⟨PStr "", PStr "Asha", PStr "9876543210", PList [PInt 5]⟩]
    ⟨PStr "", PStr "A,B", PStr "9876543210,9876543211,9876543212",
      PList [PInt 1, PInt 2, PInt 3]⟩ []
    (by decide) (.exn "Cannot pair names/mobiles/seats") rfl
  exact ⟨h.1, h.2.2.2⟩

/-- The fuel-based digits agree with `Nat.digits 10`. -/
theorem decDigitsCore_eq : ∀ (fuel n : Nat), n ≤ fuel →
    decDigitsCore fuel n = Nat.digits 10 n := by
  intro fuel
  induction fuel with
  | zero =>
      intro n hn
      have hz : n = 0 := Nat.le_zero.mp hn
      subst hz
      simp [decDigitsCore]
  | succ fuel ih =>
      intro n hn
      cases n with
      | zero => simp [decDigitsCore]
      | succ m =>
          rw [show decDigitsCore (fuel + 1) (m + 1) =
            ((m + 1) % 10) :: decDigitsCore fuel ((m + 1) / 10) from rfl]
          rw [Nat.digits_def' (by norm_num : (1 : ℕ) < 10) (Nat.succ_pos m)]
          congr 1
          apply ih
          have hlt : (m + 1) / 10 < m + 1 := Nat.div_lt_self (Nat.succ_pos m) (by norm_num)
          omega

theorem decDigits_eq (n : Nat) : decDigits n = Nat.digits 10 n :=
  decDigitsCore_eq n n le_rfl

/-- The value of a decimal digit character. -/
theorem charVal_decChar {d : Nat} (h : d < 10) : charVal (decChar d) = d := by
  interval_cases d <;> rfl

/-- Decimal digit characters are digits. -/
theorem isDigit_decChar {d : Nat} (h : d < 10) : (decChar d).isDigit = true := by
  interval_cases d <;> rfl

/-- Folding the digit-value step over a most-significant-first digit
string computes the represented number (with accumulator). -/
theorem foldl_digits_reverse : ∀ (ds : List Nat), (∀ d ∈ ds, d < 10) → ∀ (a : Nat),
    List.foldl (fun x c => 10 * x + charVal c) a ((ds.map decChar).reverse) =
      a * 10 ^ ds.length + Nat.ofDigits 10 ds := by
  intro ds
  induction ds with
  | nil => intro _ a; simp
  | cons d tl ih =>
      intro h a
      have hd : d < 10 := h d (List.mem_cons_self d tl)
      have htl : ∀ x ∈ tl, x < 10 := fun x hx => h x (List.mem_cons_of_mem d hx)
      simp only [List.map_cons, List.reverse_cons, List.foldl_append, List.foldl_cons,
        List.foldl_nil, List.length_cons]
      rw [ih htl a, charVal_decChar hd, Nat.ofDigits_cons]
      ring

/-- Python `int` on the decimal form recovers the number. -/
theorem runVal_natToDec (n : Nat) : runVal (natToDec n).data = n := by
  by_cases h : n = 0
  · subst h; rfl
  · rw [show (natToDec n).data = ((decDigits n).map decChar).reverse from by
      unfold natToDec; rw [if_neg h]]
    unfold runVal
    rw [decDigits_eq,
      foldl_digits_reverse (Nat.digits 10 n)
        (fun d hd => Nat.digits_lt_base (by norm_num) hd) 0]
    simp [Nat.ofDigits_digits]

/-- The decimal form is never the empty string. -/
theorem natToDec_data_ne_nil (n : Nat) : (natToDec n).data ≠ [] := by
  by_cases h : n = 0
  · subst h; simp [natToDec]
  · rw [show (natToDec n).data = ((decDigits n).map decChar).reverse from by
      unfold natToDec; rw [if_neg h]]
    simp only [ne_eq, List.reverse_eq_nil_iff, List.map_eq_nil_iff]
    rw [decDigits_eq]
    exact Nat.digits_ne_nil_iff_ne_zero.mpr h

/-- Every character of the decimal form is a digit. -/
theorem natToDec_all_digit (n : Nat) : ∀ c ∈ (natToDec n).data, c.isDigit = true := by
  intro c hc
  by_cases h : n = 0
  · subst h
    simp [natToDec] at hc
    subst hc
    rfl
  · rw [show (natToDec n).data = ((decDigits n).map decChar).reverse from by
      unfold natToDec; rw [if_neg h]] at hc
    rw [List.mem_reverse] at hc
    rcases List.mem_map.mp hc with ⟨d, hd, hdc⟩
    subst hdc
    rw [decDigits_eq] at hd
    exact isDigit_decChar (Nat.digits_lt_base (by norm_num) hd)

/-- Scanning an all-digit tail yields the single accumulated run. -/
theorem digitRunsAux_all_digits : ∀ (ds : List Char), (∀ c ∈ ds, c.isDigit = true) →
    ∀ (cur : List Char), digitRunsAux ds cur =
      if cur = [] ∧ ds = [] then [] else [cur.reverse ++ ds] := by
  intro ds
  induction ds with
  | nil => intro _ cur; cases cur <;> simp [digitRunsAux]
  | cons c rest ih =>
      intro h cur
      have hc : c.isDigit = true := h c (List.mem_cons_self c rest)
      have hrest : ∀ x ∈ rest, x.isDigit = true :=
        fun x hx => h x (List.mem_cons_of_mem c hx)
      simp only [digitRunsAux, hc, if_true]
      rw [ih hrest (c :: cur)]
      simp [List.reverse_cons, List.append_assoc]

/-- A non-empty all-digit string is one maximal digit run. -/
theorem digitRuns_all_digits (ds : List Char) (hne : ds ≠ [])
    (h : ∀ c ∈ ds, c.isDigit = true) : digitRuns ds = [ds] := by
  unfold digitRuns
  rw [digitRunsAux_all_digits ds h []]
  simp [hne]

/-- An all-digit prefix only accumulates into the current run. -/
theorem digitRunsAux_digit_chunk : ∀ (ds : List Char), (∀ c ∈ ds, c.isDigit = true) →
    ∀ (rest cur : List Char),
      digitRunsAux (ds ++ rest) cur = digitRunsAux rest (ds.reverse ++ cur) := by
  intro ds
  induction ds with
  | nil => intro _ rest cur; simp
  | cons c tl ih =>
      intro h rest cur
      have hc : c.isDigit = true := h c (List.mem_cons_self c tl)
      simp only [List.cons_append, digitRunsAux, hc, if_true]
      show digitRunsAux (tl ++ rest) (c :: cur) = digitRunsAux rest ((c :: tl).reverse ++ cur)
      rw [ih (fun x hx => h x (List.mem_cons_of_mem c hx)) rest (c :: cur)]
      congr 1
      simp [List.reverse_cons, List.append_assoc]

/-- A comma after a non-empty digit run closes exactly that run. -/
theorem digitRuns_comma (ds rest : List Char) (hne : ds ≠ [])
    (h : ∀ c ∈ ds, c.isDigit = true) :
    digitRuns (ds ++ ',' :: rest) = ds :: digitRuns rest := by
  unfold digitRuns
  rw [digitRunsAux_digit_chunk ds h (',' :: rest) []]
  simp only [List.append_nil]
  have h1 : (',' : Char).isDigit = false := rfl
  have h2 : (ds.reverse).isEmpty = false := by
    cases hd : ds.reverse with
    | nil => exact absurd (List.reverse_eq_nil_iff.mp hd) hne
    | cons a t => rfl
  simp only [digitRunsAux, h1, h2, Bool.false_eq_true, if_false]
  simp

/-- Digit extraction of a decimal form gives back the number. -/
theorem extract_natToDec (n : Nat) :
    extract_ints_from_string (natToDec n) = [(n : Int)] := by
  unfold extract_ints_from_string
  rw [digitRuns_all_digits (natToDec n).data (natToDec_data_ne_nil n) (natToDec_all_digit n)]
  simp [runVal_natToDec]

/-- Digit extraction of a comma-join of decimal forms gives back the
sequence. -/
theorem extract_commaJoin (l : List Nat) :
    extract_ints_from_string (commaJoin (l.map natToDec)) =
      l.map (fun n : Nat => (n : Int)) := by
  induction l with
  | nil => rfl
  | cons n tl ih =>
      cases tl with
      | nil => exact extract_natToDec n
      | cons m tl2 =>
          unfold extract_ints_from_string
          rw [show (commaJoin ((n :: m :: tl2).map natToDec)).data =
              (natToDec n).data ++ ',' :: (commaJoin ((m :: tl2).map natToDec)).data from rfl]
          rw [digitRuns_comma _ _ (natToDec_data_ne_nil n) (natToDec_all_digit n)]
          simp only [List.map_cons]
          rw [runVal_natToDec]
          congr 1

/-- C4: a seat sequence given as the comma-joined string of the
numbers, as the list of the numbers, or as the list of their
decimal-string forms normalizes to the same ordered integer sequence,
with duplicates kept. -/
theorem seats_normalization_agreement (l : List Nat) (hpos : ∀ n ∈ l, 0 < n) :
    normalize_seats (PStr (commaJoin (l.map natToDec))) =
        .ok (l.map (fun n : Nat => (n : Int))) ∧
    normalize_seats (PList (l.map (fun n : Nat => PInt (n : Int)))) =
        .ok (l.map (fun n : Nat => (n : Int))) ∧
    normalize_seats (PList (l.map (fun n : Nat => PStr (natToDec n)))) =
        .ok (l.map (fun n : Nat => (n : Int))) := by
  clear hpos
  refine ⟨?_, ?_, ?_⟩
  · show Except.ok (extract_ints_from_string (commaJoin (l.map natToDec))) = _
    rw [extract_commaJoin]
  · refine congrArg Except.ok ?_
    induction l with
    | nil => rfl
    | cons n tl ih =>
        simp only [List.map_cons, List.flatMap_cons]
        rw [ih]
        rfl
  · refine congrArg Except.ok ?_
    induction l with
    | nil => rfl
    | cons n tl ih =>
        simp only [List.map_cons, List.flatMap_cons]
        rw [extract_natToDec, ih]
        rfl

/-- Witness for C4 at the specification's example `[12, 45]`. -/
theorem seats_normalization_agreement_witness :
    normalize_seats (PStr "12,45") = .ok [12, 45] ∧
    normalize_seats (PList [PInt 12, PInt 45]) = .ok [12, 45] ∧
    normalize_seats (PList [PStr "12", PStr "45"]) = .ok [12, 45] := by
  have h := seats_normalization_agreement [12, 45] (by decide)
  have e1 : commaJoin ([12, 45].map natToDec) = "12,45" := rfl
  have e2 : ([12, 45].map (fun n : Nat => PInt (n : Int))) = [PInt 12, PInt 45] := rfl
  have e3 : ([12, 45].map (fun n : Nat => PStr (natToDec n))) = [PStr "12", PStr "45"] := rfl
  refine ⟨?_, ?_, ?_⟩
  · have h1 := h.1; rw [e1] at h1; exact h1.trans (by rfl)
  · have h2 := h.2.1; rw [e2] at h2; exact h2.trans (by rfl)
  · have h3 := h.2.2; rw [e3] at h3; exact h3.trans (by rfl)

end App
